import Mathlib

/-!
# memcached-operator: defaulting and fingerprinting of `MemcachedProxy`

Shallow embedding of `pkg/apis/ianlewis.org/v1alpha1/types.go`.

Conventions of the embedding.

* A Go pointer field (`*ServiceSpec`, `*int32`) is an `Option` of the pointed-to
  value (`none` is `nil`).  A rule tree is a finite tree: distinct nodes do not
  share a `ServiceSpec` pointee or a `Children` backing array.
* A method with a pointer receiver is a function returning the state of the
  receiver after the call.  The argument `p` of the `ApplyDefaults` methods is
  only read, and only its `Namespace` is read.
* `Type` is a reserved word of Lean; the Go field `Type` is written `Type_`.
* `int32` and `uint64` values are integers / naturals; the arithmetic on a
  `uint64` (the FNV-1a sum of the structural hash, the formatting of the
  fingerprint) is reduced modulo `2 ^ 64`.
* Code outside the repository that the methods call (`hashstructure.Hash`,
  `strconv.FormatUint`) and the controller, of which only the test is
  available, are modelled; the doc comment of each such definition says so.
-/

/-! ## Data model -/

/-- The rule type constant `ReplicatedRuleType` of `types.go`. -/
def ReplicatedRuleType : String := "replicated"

/-- The rule type constant `ShardedRuleType` of `types.go`. -/
def ShardedRuleType : String := "sharded"

/-- The struct `intstr.IntOrString` of `k8s.io/apimachinery/pkg/util/intstr`:
a tag (`0` for an integer, `1` for a string) and the two payloads. -/
structure IntOrString where
  Type_ : Int
  IntVal : Int
  StrVal : String
  deriving DecidableEq, Repr

/-- The struct `ServiceSpec` of `types.go`. -/
structure ServiceSpec where
  Name : String
  Namespace : String
  Port : IntOrString
  deriving DecidableEq, Repr

/-- The struct `resource.Quantity` of `k8s.io/apimachinery/pkg/api/resource`.
The amount is held in the unexported fields `i`, `d` and `s`, kept here as the
canonical text of the amount; `Format` is the one exported field. -/
structure Quantity where
  amount : String
  Format : String
  deriving DecidableEq, Repr

/-- The struct `corev1.ResourceRequirements` of `k8s.io/api/core/v1`: two maps
from a resource name to a quantity, kept as association lists. -/
structure ResourceRequirements where
  Limits : List (String × Quantity)
  Requests : List (String × Quantity)
  deriving DecidableEq, Repr

/-- The struct `McRouterSpec` of `types.go`; `Port` is a `*int32`. -/
structure McRouterSpec where
  Image : String
  Resources : ResourceRequirements
  Port : Option Int
  deriving DecidableEq, Repr

/-- The struct `RuleSpec` of `types.go`: `Type`, `Service` (a `*ServiceSpec`)
and the slice `Children`. -/
inductive RuleSpec where
  | mk (Type_ : String) (Service : Option ServiceSpec) (Children : List RuleSpec)
  deriving Repr

namespace RuleSpec

/-- Field `Type` of a rule. -/
def Type_ : RuleSpec → String
  | mk t _ _ => t

/-- Field `Service` of a rule. -/
def Service : RuleSpec → Option ServiceSpec
  | mk _ s _ => s

/-- Field `Children` of a rule. -/
def Children : RuleSpec → List RuleSpec
  | mk _ _ cs => cs

end RuleSpec

/-- The struct `MemcachedProxySpec` of `types.go`. -/
structure MemcachedProxySpec where
  Rules : RuleSpec
  McRouter : McRouterSpec
  deriving Repr

/-- The struct `MemcachedProxyStatus` of `types.go`. -/
structure MemcachedProxyStatus where
  ObservedSpecHash : String
  Initialized : Bool
  deriving DecidableEq, Repr

/-- The fields of `metav1.ObjectMeta` that identify the object. -/
structure ObjectMeta where
  Name : String
  Namespace : String
  deriving DecidableEq, Repr

/-- The struct `MemcachedProxy` of `types.go`; `ObjectMeta` is embedded, so
`p.Namespace` is the namespace of the object. -/
structure MemcachedProxy extends ObjectMeta where
  Spec : MemcachedProxySpec
  Status : MemcachedProxyStatus
  deriving Repr

/-! ## Defaulting -/

/-- The method `(*McRouterSpec).ApplyDefaults`. -/
def McRouterSpec.ApplyDefaults (s : McRouterSpec) (_p : MemcachedProxy) : McRouterSpec :=
  let s := if s.Image = "" then { s with Image := "jphalip/mcrouter:0.36.0" } else s
  if s.Port = none then { s with Port := some 11211 } else s

/-- The method `(*ServiceSpec).ApplyDefaults`. -/
def ServiceSpec.ApplyDefaults (s : ServiceSpec) (p : MemcachedProxy) : ServiceSpec :=
  if s.Namespace = "" then { s with Namespace := p.Namespace } else s

/-- What the element `orig` of a `Children` slice holds after the statement
`for _, r := range r.Children { r.ApplyDefaults(p) }` has run its body on the
loop variable, a copy of `orig`, leaving the copy in state `copy`.  The field
`Type` of the copy is a value of its own, so `orig` keeps its `Type`; the
pointer `Service` and the slice `Children` of the copy refer to the same
service and the same backing array as those of `orig`, so what the body wrote
through them is seen in `orig`. -/
def RuleSpec.afterRangeCopy (orig copy : RuleSpec) : RuleSpec :=
  RuleSpec.mk orig.Type_ copy.Service copy.Children

mutual
/-- The method `(*RuleSpec).ApplyDefaults`. -/
def RuleSpec.ApplyDefaults : RuleSpec → MemcachedProxy → RuleSpec
  | RuleSpec.mk t s cs, p =>
    RuleSpec.mk (if t = "" then ShardedRuleType else t)
      (s.map fun sv => sv.ApplyDefaults p)
      (RuleSpec.rangeChildren cs p)
/-- The loop `for _, r := range r.Children { r.ApplyDefaults(p) }` of
`(*RuleSpec).ApplyDefaults`, as the state of the slice after it. -/
def RuleSpec.rangeChildren : List RuleSpec → MemcachedProxy → List RuleSpec
  | [], _ => []
  | c :: cs, p => RuleSpec.afterRangeCopy c (c.ApplyDefaults p) :: RuleSpec.rangeChildren cs p
end

/-- The state of a `MemcachedProxySpec` after the first statement of
`(*MemcachedProxySpec).ApplyDefaults`, `s.McRouter.ApplyDefaults(p)`. -/
def MemcachedProxySpec.afterMcRouterDefaults (s : MemcachedProxySpec) (p : MemcachedProxy) :
    MemcachedProxySpec :=
  { s with McRouter := s.McRouter.ApplyDefaults p }

/-- The method `(*MemcachedProxySpec).ApplyDefaults`. -/
def MemcachedProxySpec.ApplyDefaults (s : MemcachedProxySpec) (p : MemcachedProxy) :
    MemcachedProxySpec :=
  let s := s.afterMcRouterDefaults p
  { s with Rules := s.Rules.ApplyDefaults p }

/-- The method `(*MemcachedProxy).ApplyDefaults`. -/
def MemcachedProxy.ApplyDefaults (p : MemcachedProxy) : MemcachedProxy :=
  { p with Spec := p.Spec.ApplyDefaults p }

/-! ## Addressing the nodes of a rule tree -/

/-- The node reached from a rule along a path of child indices, if there is
one: `[]` is the rule itself, `i :: is` continues from `Children[i]`. -/
def RuleSpec.nodeAt : List Nat → RuleSpec → Option RuleSpec
  | [], r => some r
  | i :: is, r => (r.Children[i]?).bind (RuleSpec.nodeAt is)

mutual
/-- Whether `q` holds of a rule and of every rule below it. -/
def RuleSpec.everyNode (q : RuleSpec → Bool) : RuleSpec → Bool
  | RuleSpec.mk t s cs => q (RuleSpec.mk t s cs) && RuleSpec.everyChild q cs
/-- Whether `q` holds of every node of every tree of a list. -/
def RuleSpec.everyChild (q : RuleSpec → Bool) : List RuleSpec → Bool
  | [] => true
  | c :: cs => RuleSpec.everyNode q c && RuleSpec.everyChild q cs
end

/-- The rule has a type. -/
def RuleSpec.hasType (r : RuleSpec) : Bool :=
  r.Type_ != ""

/-- The service reference of the rule, if it has one, has a namespace. -/
def RuleSpec.serviceHasNamespace (r : RuleSpec) : Bool :=
  match r.Service with
  | none => true
  | some s => s.Namespace != ""

/-- The effect of `ApplyDefaults` on a rule below the root: the state of an
element of a `Children` slice after the loop of its parent has run on it. -/
def RuleSpec.belowRoot (p : MemcachedProxy) (r : RuleSpec) : RuleSpec :=
  RuleSpec.afterRangeCopy r (r.ApplyDefaults p)

/-! ## Fingerprint -/

/-- A non-nil value of the Go interface `error`; `none : Option GoError` is `nil`. -/
structure GoError where
  msg : String
  deriving DecidableEq, Repr

/-- The digit table of Go's `strconv`. -/
def strconvDigits : List Char := "0123456789abcdefghijklmnopqrstuvwxyz".toList

/-- The digit of `strconv` for a digit value. -/
def strconvDigit (d : Nat) : Char := strconvDigits.getD d '0'

/-- Modelled from the spec: the digit loop of `strconv.FormatUint`, a function of
Go's standard library that is not in the repository; the spec calls its result
a fixed-radix string.  While `u >= base` the digit of
`u % base` is put in front of what is written and `u` becomes `u / base`; the
last digit is that of `u`.  The loop runs at most 64 times on a `uint64` with
`2 <= base`, which is the fuel. -/
def formatBits : Nat → Nat → Nat → List Char → List Char
  | 0, u, _, acc => strconvDigit u :: acc
  | fuel + 1, u, base, acc =>
    if base ≤ u then formatBits fuel (u / base) base (strconvDigit (u % base) :: acc)
    else strconvDigit u :: acc

/-- Modelled from the spec: `strconv.FormatUint(i, base)` of Go's standard
library, which is not in the repository, for `2 <= base <= 36` (it panics for
any other base): the numeral of `i` in the base, with lower-case letters for
the digit values from 10. -/
def FormatUint (i : Nat) (base : Nat) : String :=
  String.mk (formatBits 64 i base [])

/-- The method `(*MemcachedProxySpec).GetHash`.  The function
`hashstructure.Hash(s, nil)` of `github.com/mitchellh/hashstructure` is code
outside the repository: it is the parameter `Hash`, which gives for the content
of a spec a hash and an error; the hash is a `uint64`, its value is taken
modulo `2 ^ 64`. -/
def MemcachedProxySpec.GetHash (Hash : MemcachedProxySpec → Nat × Option GoError)
    (s : MemcachedProxySpec) : String × Option GoError :=
  match Hash s with
  | (_, some err) => ("", some err)
  | (hash, none) => (FormatUint (hash % 2 ^ 64) 16, none)

/-- A spec is normalized when it is the `Spec` of an object after `ApplyDefaults`. -/
def MemcachedProxySpec.isNormalized (s : MemcachedProxySpec) : Prop :=
  ∃ p : MemcachedProxy, p.ApplyDefaults.Spec = s

/-- The value of a digit of `strconv`. -/
def strconvDigitValue (c : Char) : Nat := strconvDigits.indexOf c

/-- The value in base 16 of a numeral, most significant digit first, continuing
from the value `a` of the digits already read. -/
def hexValueFrom (a : Nat) (cs : List Char) : Nat :=
  cs.foldl (fun v c => 16 * v + strconvDigitValue c) a

/-! ## Structural hash

`hashstructure.Hash(s, nil)`, called by `GetHash`, is the reflection walker of
`github.com/mitchellh/hashstructure` with its default hasher, FNV-1a of 64
bits.  The library is not among the sources of the repository; its walk is
written out below for the types of a `MemcachedProxySpec`. -/

/-- Modelled from the spec: the default hasher of `hashstructure`, `fnv.New64a()`
of Go's standard library, missing from the repository: the FNV-1a sum of 64
bits of the bytes written since the last `Reset`. -/
def fnv64a (bytes : List Nat) : Nat :=
  bytes.foldl (fun h b => (h ^^^ b) * 1099511628211 % 2 ^ 64) 14695981039346656037

/-- The `size` bytes of a number in little-endian order, as
`binary.Write(h, binary.LittleEndian, v)` writes an integer of that size. -/
def littleEndian (size : Nat) (v : Nat) : List Nat :=
  (List.range size).map fun i => v / 256 ^ i % 256

/-- The UTF-8 bytes of a code point. -/
def utf8Bytes (c : Nat) : List Nat :=
  if c < 128 then [c]
  else if c < 2048 then [192 + c / 64, 128 + c % 64]
  else if c < 65536 then [224 + c / 4096, 128 + c / 64 % 64, 128 + c % 64]
  else [240 + c / 262144, 128 + c / 4096 % 64, 128 + c / 64 % 64, 128 + c % 64]

/-- The bytes of a string, `[]byte(v.String())`. -/
def stringBytes (s : String) : List Nat :=
  s.toList.flatMap fun c => utf8Bytes c.toNat

namespace hashstructure

/-- Modelled from the spec: the walk of a value of kind string, missing with
the library: the hasher is reset and the bytes of the string are written. -/
def visitString (s : String) : Nat :=
  fnv64a (stringBytes s)

/-- Modelled from the spec: the walk of a value of an integer kind of `size`
bytes, missing with the library: the hasher is reset and the integer is
written in little-endian order (a negative one in two's complement). -/
def visitInt (size : Nat) (v : Int) : Nat :=
  fnv64a (littleEndian size (v % 2 ^ (8 * size)).toNat)

/-- Modelled from the spec: the walk of a nil pointer, missing with the
library: a nil is treated like the zero of `int`, written as an `int64`. -/
def visitNil : Nat :=
  visitInt 8 0

/-- Modelled from the spec: `hashUpdateOrdered` of the library, missing from
the repository: the hasher is reset and the two hashes are written as `uint64`
in little-endian order. -/
def hashUpdateOrdered (a b : Nat) : Nat :=
  fnv64a (littleEndian 8 a ++ littleEndian 8 b)

/-- Modelled from the spec: `hashUpdateUnordered` of the library, missing from
the repository: the exclusive or of the two hashes. -/
def hashUpdateUnordered (a b : Nat) : Nat :=
  a ^^^ b

/-- Modelled from the spec: one step of the walk of a struct, missing with the
library: the hash `h` so far is combined, unordered, with the ordered hash of
the name of an exported field and of the hash of its value.  Unexported fields
are skipped. -/
def visitField (h : Nat) (name : String) (value : Nat) : Nat :=
  hashUpdateUnordered h (hashUpdateOrdered (visitString name) value)

/-- Modelled from the spec: the walk of a `resource.Quantity`, missing with the
library: the name of the type and its one exported field, `Format`; the amount
is in unexported fields, which the walk skips. -/
def visitQuantity (q : Quantity) : Nat :=
  visitField (visitString "Quantity") "Format" (visitString q.Format)

/-- Modelled from the spec: the walk of a map from resource names to quantities,
missing with the library: the ordered hash of key and value of each entry, all
combined unordered, from 0. -/
def visitResourceList (m : List (String × Quantity)) : Nat :=
  m.foldl (fun h e => hashUpdateUnordered h (hashUpdateOrdered (visitString e.1) (visitQuantity e.2))) 0

/-- Modelled from the spec: the walk of a `corev1.ResourceRequirements`, missing
with the library. -/
def visitResourceRequirements (r : ResourceRequirements) : Nat :=
  visitField (visitField (visitString "ResourceRequirements")
    "Limits" (visitResourceList r.Limits))
    "Requests" (visitResourceList r.Requests)

/-- Modelled from the spec: the walk of an `intstr.IntOrString`, missing with
the library; `Type` is of kind `int`, written as an `int64`, and `IntVal` is an
`int32`. -/
def visitIntOrString (v : IntOrString) : Nat :=
  visitField (visitField (visitField (visitString "IntOrString")
    "Type" (visitInt 8 v.Type_))
    "IntVal" (visitInt 4 v.IntVal))
    "StrVal" (visitString v.StrVal)

/-- Modelled from the spec: the walk of a `ServiceSpec`, missing with the library. -/
def visitServiceSpec (s : ServiceSpec) : Nat :=
  visitField (visitField (visitField (visitString "ServiceSpec")
    "Name" (visitString s.Name))
    "Namespace" (visitString s.Namespace))
    "Port" (visitIntOrString s.Port)

/-- Modelled from the spec: the walk of a `*ServiceSpec`, missing with the
library: a pointer is followed to the value it points to. -/
def visitServicePtr : Option ServiceSpec → Nat
  | none => visitNil
  | some s => visitServiceSpec s

mutual
/-- Modelled from the spec: the walk of a `RuleSpec`, missing with the library. -/
def visitRuleSpec : RuleSpec → Nat
  | RuleSpec.mk t s cs =>
    visitField (visitField (visitField (visitString "RuleSpec")
      "Type" (visitString t))
      "Service" (visitServicePtr s))
      "Children" (visitRuleSlice cs 0)
/-- Modelled from the spec: the walk of a slice of `RuleSpec`, missing with the
library: the hash `h` so far is combined, ordered, with the hash of each
element in turn. -/
def visitRuleSlice : List RuleSpec → Nat → Nat
  | [], h => h
  | c :: cs, h => visitRuleSlice cs (hashUpdateOrdered h (visitRuleSpec c))
end

/-- Modelled from the spec: the walk of a `*int32`, missing with the library. -/
def visitInt32Ptr : Option Int → Nat
  | none => visitNil
  | some v => visitInt 4 v

/-- Modelled from the spec: the walk of a `McRouterSpec`, missing with the library. -/
def visitMcRouterSpec (s : McRouterSpec) : Nat :=
  visitField (visitField (visitField (visitString "McRouterSpec")
    "Image" (visitString s.Image))
    "Resources" (visitResourceRequirements s.Resources))
    "Port" (visitInt32Ptr s.Port)

/-- Modelled from the spec: the walk of a `MemcachedProxySpec`, missing with
the library. -/
def visitMemcachedProxySpec (s : MemcachedProxySpec) : Nat :=
  visitField (visitField (visitString "MemcachedProxySpec")
    "Rules" (visitRuleSpec s.Rules))
    "McRouter" (visitMcRouterSpec s.McRouter)

/-- Modelled from the spec: `hashstructure.Hash(s, nil)` on a
`*MemcachedProxySpec`, missing with the library.  The walk fails only on a kind
it does not know, and a `MemcachedProxySpec` has none: the error is nil. -/
def Hash (s : MemcachedProxySpec) : Nat × Option GoError :=
  (visitMemcachedProxySpec s, none)

end hashstructure

/-! ## Test data -/

/-- The zero value of `McRouterSpec`. -/
def McRouterSpec.zero : McRouterSpec :=
  { Image := "", Resources := { Limits := [], Requests := [] }, Port := none }

/-- The zero value of `intstr.IntOrString`. -/
def IntOrString.zero : IntOrString :=
  { Type_ := 0, IntVal := 0, StrVal := "" }

/-- The object `p` built by `TestNewProxy` in `controller_test.go`. -/
def testNewProxy : MemcachedProxy :=
  { Name := "hoge", Namespace := "default",
    Spec := { Rules := RuleSpec.mk "" (some { Name := "fuga", Namespace := "", Port := IntOrString.zero }) [],
              McRouter := McRouterSpec.zero },
    Status := { ObservedSpecHash := "", Initialized := false } }

/-- A proxy whose root rule has one child that is itself an internal rule
without a type: `{children: [{children: [{service: {name: "a"}}]}]}`. -/
def nestedProxy : MemcachedProxy :=
  { Name := "hoge", Namespace := "default",
    Spec := { Rules := RuleSpec.mk "" none
                [RuleSpec.mk "" none
                  [RuleSpec.mk "" (some { Name := "a", Namespace := "", Port := IntOrString.zero }) []]],
              McRouter := McRouterSpec.zero },
    Status := { ObservedSpecHash := "", Initialized := false } }



/-- A proxy in which everything is set: a "replicated" root over two leaves. -/
def defaultedProxy : MemcachedProxy :=
  { Name := "hoge", Namespace := "default",
    Spec := { Rules := RuleSpec.mk "replicated" none
                [RuleSpec.mk "sharded" (some { Name := "a", Namespace := "ns1", Port := IntOrString.zero }) [],
                 RuleSpec.mk "replicated" (some { Name := "b", Namespace := "ns2", Port := IntOrString.zero }) []],
              McRouter := { Image := "mcrouter:1", Resources := { Limits := [("cpu", { amount := "100m", Format := "DecimalSI" })], Requests := [] },
                            Port := some 0 } },
    Status := { ObservedSpecHash := "", Initialized := false } }

/-- A hash function that always gives 0 and no error, to instantiate the
parameter of `GetHash`. -/
def zeroHash (_s : MemcachedProxySpec) : Nat × Option GoError :=
  (0, none)

/-- A hash function that always fails, to instantiate the parameter of `GetHash`. -/
def failingHash (_s : MemcachedProxySpec) : Nat × Option GoError :=
  (0, some { msg := "unknown kind to hash" })

/-- Modelled from the spec: the validation of a rule node, which `types.go` does
not contain.  A node is a leaf iff it carries a service reference and internal
iff it carries one or more children; a node with neither or both is invalid. -/
def RuleSpec.isValidNode (r : RuleSpec) : Bool :=
  xor r.Service.isSome (!r.Children.isEmpty)

/-- A proxy whose root rule carries both a service reference and a child. -/
def bothProxy : MemcachedProxy :=
  { Name := "hoge", Namespace := "default",
    Spec := { Rules := RuleSpec.mk "" (some { Name := "fuga", Namespace := "", Port := IntOrString.zero })
                [RuleSpec.mk "" (some { Name := "a", Namespace := "", Port := IntOrString.zero }) []],
              McRouter := McRouterSpec.zero },
    Status := { ObservedSpecHash := "", Initialized := false } }

/-- A proxy whose root rule carries neither a service reference nor a child. -/
def neitherProxy : MemcachedProxy :=
  { Name := "hoge", Namespace := "default",
    Spec := { Rules := RuleSpec.mk "" none [], McRouter := McRouterSpec.zero },
    Status := { ObservedSpecHash := "", Initialized := false } }

/-- The sixteen digits of a lower-case hexadecimal numeral. -/
def hexDigits : List Char := "0123456789abcdef".toList

/-! ## Reconcile

The controller (`syncHandler`, `KeyFunc`) is in `pkg/controller/proxy`, of which
only the test `controller_test.go` is available.  It is modelled from section
4.5 of the specification. -/

/-- A normalized spec with the limit `cpu: 100m`. -/
def cpu100mSpec : MemcachedProxySpec :=
  { Rules := RuleSpec.mk "sharded" (some { Name := "fuga", Namespace := "default", Port := IntOrString.zero }) [],
    McRouter := { Image := "jphalip/mcrouter:0.36.0",
                  Resources := { Limits := [("cpu", { amount := "100m", Format := "DecimalSI" })],
                                 Requests := [] },
                  Port := some 11211 } }

/-- The spec `cpu100mSpec` with the limit `cpu: 200m` in place of `cpu: 100m`. -/
def cpu200mSpec : MemcachedProxySpec :=
  { Rules := RuleSpec.mk "sharded" (some { Name := "fuga", Namespace := "default", Port := IntOrString.zero }) [],
    McRouter := { Image := "jphalip/mcrouter:0.36.0",
                  Resources := { Limits := [("cpu", { amount := "200m", Format := "DecimalSI" })],
                                 Requests := [] },
                  Port := some 11211 } }

/-- A proxy with a given spec, to show that the spec is normalized. -/
def proxyOfSpec (s : MemcachedProxySpec) : MemcachedProxy :=
  { Name := "hoge", Namespace := "default", Spec := s,
    Status := { ObservedSpecHash := "", Initialized := false } }

/-- A normalized spec with two limits, `cpu` before `memory`. -/
def cpuMemorySpec : MemcachedProxySpec :=
  { cpu100mSpec with
    McRouter := { cpu100mSpec.McRouter with
      Resources := { Limits := [("cpu", { amount := "100m", Format := "DecimalSI" }),
                                ("memory", { amount := "128Mi", Format := "BinarySI" })],
                     Requests := [] } } }

/-- The spec `cpuMemorySpec` with the entries of the map of limits met in the
other order, `memory` before `cpu`. -/
def memoryCpuSpec : MemcachedProxySpec :=
  { cpu100mSpec with
    McRouter := { cpu100mSpec.McRouter with
      Resources := { Limits := [("memory", { amount := "128Mi", Format := "BinarySI" }),
                                ("cpu", { amount := "100m", Format := "DecimalSI" })],
                     Requests := [] } } }

theorem RuleSpec.rangeChildren_eq_map (p : MemcachedProxy) (cs : List RuleSpec) :
    RuleSpec.rangeChildren cs p = cs.map (RuleSpec.belowRoot p) := by
  induction cs with
  | nil => simp [RuleSpec.rangeChildren]
  | cons c cs ih => simp [RuleSpec.rangeChildren, ih, RuleSpec.belowRoot]

theorem RuleSpec.applyDefaults_mk (p : MemcachedProxy) (t : String) (s : Option ServiceSpec)
    (cs : List RuleSpec) :
    (RuleSpec.mk t s cs).ApplyDefaults p =
      RuleSpec.mk (if t = "" then ShardedRuleType else t)
        (s.map fun sv => sv.ApplyDefaults p) (cs.map (RuleSpec.belowRoot p)) := by
  simp [RuleSpec.ApplyDefaults, RuleSpec.rangeChildren_eq_map]

theorem RuleSpec.belowRoot_mk (p : MemcachedProxy) (t : String) (s : Option ServiceSpec)
    (cs : List RuleSpec) :
    RuleSpec.belowRoot p (RuleSpec.mk t s cs) =
      RuleSpec.mk t (s.map fun sv => sv.ApplyDefaults p) (cs.map (RuleSpec.belowRoot p)) := by
  simp [RuleSpec.belowRoot, RuleSpec.afterRangeCopy, RuleSpec.applyDefaults_mk, RuleSpec.Type_,
    RuleSpec.Service, RuleSpec.Children]

theorem ServiceSpec.svc_applyDefaults_idem (p : MemcachedProxy) (s : ServiceSpec) :
    (s.ApplyDefaults p).ApplyDefaults p = s.ApplyDefaults p := by
  unfold ServiceSpec.ApplyDefaults
  by_cases h : s.Namespace = ""
  · by_cases h2 : p.Namespace = "" <;> simp [h, h2]
  · simp [h]

mutual
theorem RuleSpec.belowRoot_idem (p : MemcachedProxy) :
    ∀ r : RuleSpec, RuleSpec.belowRoot p (RuleSpec.belowRoot p r) = RuleSpec.belowRoot p r
  | RuleSpec.mk t s cs => by
    rw [RuleSpec.belowRoot_mk, RuleSpec.belowRoot_mk, RuleSpec.belowRoot_map_idem p cs]
    cases s <;> simp [ServiceSpec.svc_applyDefaults_idem]
theorem RuleSpec.belowRoot_map_idem (p : MemcachedProxy) :
    ∀ cs : List RuleSpec,
      (cs.map (RuleSpec.belowRoot p)).map (RuleSpec.belowRoot p) = cs.map (RuleSpec.belowRoot p)
  | [] => rfl
  | c :: cs => by
    simp only [List.map_cons]
    rw [RuleSpec.belowRoot_idem p c, RuleSpec.belowRoot_map_idem p cs]
end

theorem ServiceSpec.svc_applyDefaults_congr (p q : MemcachedProxy) (h : p.Namespace = q.Namespace)
    (s : ServiceSpec) : s.ApplyDefaults p = s.ApplyDefaults q := by
  simp [ServiceSpec.ApplyDefaults, h]

mutual
theorem RuleSpec.belowRoot_congr (p q : MemcachedProxy) (h : p.Namespace = q.Namespace) :
    ∀ r : RuleSpec, RuleSpec.belowRoot p r = RuleSpec.belowRoot q r
  | RuleSpec.mk t s cs => by
    rw [RuleSpec.belowRoot_mk, RuleSpec.belowRoot_mk, RuleSpec.belowRoot_map_congr p q h cs]
    cases s <;> simp [ServiceSpec.svc_applyDefaults_congr p q h]
theorem RuleSpec.belowRoot_map_congr (p q : MemcachedProxy) (h : p.Namespace = q.Namespace) :
    ∀ cs : List RuleSpec, cs.map (RuleSpec.belowRoot p) = cs.map (RuleSpec.belowRoot q)
  | [] => rfl
  | c :: cs => by
    simp only [List.map_cons]
    rw [RuleSpec.belowRoot_congr p q h c, RuleSpec.belowRoot_map_congr p q h cs]
end

theorem RuleSpec.rule_applyDefaults_congr (p q : MemcachedProxy) (h : p.Namespace = q.Namespace)
    (r : RuleSpec) : r.ApplyDefaults p = r.ApplyDefaults q := by
  cases r with
  | mk t s cs =>
    rw [RuleSpec.applyDefaults_mk, RuleSpec.applyDefaults_mk, RuleSpec.belowRoot_map_congr p q h cs]
    cases s <;> simp [ServiceSpec.svc_applyDefaults_congr p q h]

theorem RuleSpec.rule_applyDefaults_idem (p : MemcachedProxy) (r : RuleSpec) :
    (r.ApplyDefaults p).ApplyDefaults p = r.ApplyDefaults p := by
  cases r with
  | mk t s cs =>
    rw [RuleSpec.applyDefaults_mk, RuleSpec.applyDefaults_mk, RuleSpec.belowRoot_map_idem p cs]
    have ht : (if (if t = "" then ShardedRuleType else t) = "" then ShardedRuleType
        else (if t = "" then ShardedRuleType else t)) = (if t = "" then ShardedRuleType else t) := by
      by_cases h : t = ""
      · simp [h, ShardedRuleType]
      · simp [h]
    rw [ht]
    cases s <;> simp [ServiceSpec.svc_applyDefaults_idem]

theorem McRouterSpec.mc_applyDefaults_idem (p q : MemcachedProxy) (s : McRouterSpec) :
    (s.ApplyDefaults p).ApplyDefaults q = s.ApplyDefaults p := by
  unfold McRouterSpec.ApplyDefaults
  by_cases h1 : s.Image = "" <;> by_cases h2 : s.Port = none <;> simp [h1, h2]

theorem MemcachedProxy.applyDefaults_namespace (p : MemcachedProxy) :
    p.ApplyDefaults.Namespace = p.Namespace := rfl

theorem MemcachedProxy.proxy_applyDefaults_idem (p : MemcachedProxy) :
    p.ApplyDefaults.ApplyDefaults = p.ApplyDefaults := by
  have hc := RuleSpec.rule_applyDefaults_congr p.ApplyDefaults p (MemcachedProxy.applyDefaults_namespace p)
  simp only [MemcachedProxy.ApplyDefaults, MemcachedProxySpec.ApplyDefaults,
    MemcachedProxySpec.afterMcRouterDefaults] at hc ⊢
  rw [hc, RuleSpec.rule_applyDefaults_idem, McRouterSpec.mc_applyDefaults_idem]

theorem RuleSpec.children_belowRoot (p : MemcachedProxy) (r : RuleSpec) :
    (RuleSpec.belowRoot p r).Children = r.Children.map (RuleSpec.belowRoot p) := by
  cases r with
  | mk t s cs => rw [RuleSpec.belowRoot_mk]; rfl

theorem RuleSpec.children_applyDefaults (p : MemcachedProxy) (r : RuleSpec) :
    (r.ApplyDefaults p).Children = r.Children.map (RuleSpec.belowRoot p) := by
  cases r with
  | mk t s cs => rw [RuleSpec.applyDefaults_mk]; rfl

theorem RuleSpec.nodeAt_belowRoot (p : MemcachedProxy) :
    ∀ (path : List Nat) (r : RuleSpec),
      (RuleSpec.belowRoot p r).nodeAt path = (r.nodeAt path).map (RuleSpec.belowRoot p)
  | [], r => rfl
  | i :: is, r => by
    simp only [RuleSpec.nodeAt, RuleSpec.children_belowRoot, List.getElem?_map]
    cases r.Children[i]? with
    | none => rfl
    | some c => simpa using RuleSpec.nodeAt_belowRoot p is c

theorem RuleSpec.nodeAt_applyDefaults_cons (p : MemcachedProxy) (i : Nat) (is : List Nat)
    (r : RuleSpec) :
    (r.ApplyDefaults p).nodeAt (i :: is) = (r.nodeAt (i :: is)).map (RuleSpec.belowRoot p) := by
  simp only [RuleSpec.nodeAt, RuleSpec.children_applyDefaults, List.getElem?_map]
  cases r.Children[i]? with
  | none => rfl
  | some c => simpa using RuleSpec.nodeAt_belowRoot p is c

/-! ## Claims -/

/-- C1: calling `ApplyDefaults` twice on a `MemcachedProxy` gives the same object
as calling it once; in particular the whole `Spec` (rule tree at every depth,
service references, image, port value) is the same. -/
theorem ApplyDefaults_idempotent (p : MemcachedProxy) :
    p.ApplyDefaults.ApplyDefaults = p.ApplyDefaults ∧
      p.ApplyDefaults.ApplyDefaults.Spec = p.ApplyDefaults.Spec := by
  have h := MemcachedProxy.proxy_applyDefaults_idem p
  exact ⟨h, by rw [h]⟩

/-- C2, evaluated on the code: in `nestedProxy` the only child of the root is an
internal rule (one child) whose type is empty, and after `ApplyDefaults` its
type is still empty, while the root has become "sharded". -/
theorem ApplyDefaults_nested_internal_type_stays_empty :
    (nestedProxy.Spec.Rules.nodeAt [0]).map (fun n => (n.Type_, n.Children.length)) = some ("", 1) ∧
      (nestedProxy.ApplyDefaults.Spec.Rules.nodeAt [0]).map RuleSpec.Type_ = some "" ∧
      nestedProxy.ApplyDefaults.Spec.Rules.Type_ = "sharded" := by
  decide

/-- C3: if the root rule of a `MemcachedProxy` has an empty type, then after
`ApplyDefaults` the type of the root rule is `ShardedRuleType`, "sharded". -/
theorem ApplyDefaults_root_type_sharded (p : MemcachedProxy) (h : p.Spec.Rules.Type_ = "") :
    p.ApplyDefaults.Spec.Rules.Type_ = ShardedRuleType ∧ ShardedRuleType = "sharded" := by
  refine ⟨?_, rfl⟩
  obtain ⟨meta, ⟨rules, mc⟩, st⟩ := p
  cases rules with
  | mk t s cs =>
    have ht : t = "" := h
    simp [MemcachedProxy.ApplyDefaults, MemcachedProxySpec.ApplyDefaults,
      MemcachedProxySpec.afterMcRouterDefaults, RuleSpec.ApplyDefaults, RuleSpec.Type_, ht]

/-- Witness of C3 on the object of `TestNewProxy`: a single leaf rule that only
names the service "fuga". -/
theorem ApplyDefaults_root_type_sharded_witness :
    testNewProxy.Spec.Rules.Type_ = "" ∧
      (testNewProxy.ApplyDefaults.Spec.Rules.Type_ = ShardedRuleType ∧ ShardedRuleType = "sharded") :=
  ⟨by decide, ApplyDefaults_root_type_sharded testNewProxy (by decide)⟩

theorem RuleSpec.service_belowRoot (p : MemcachedProxy) (r : RuleSpec) :
    (RuleSpec.belowRoot p r).Service = r.Service.map fun sv => sv.ApplyDefaults p := by
  cases r with
  | mk t s cs => rw [RuleSpec.belowRoot_mk]; rfl

theorem RuleSpec.service_applyDefaults (p : MemcachedProxy) (r : RuleSpec) :
    (r.ApplyDefaults p).Service = r.Service.map fun sv => sv.ApplyDefaults p := by
  cases r with
  | mk t s cs => rw [RuleSpec.applyDefaults_mk]; rfl

/-- The node at a path after defaulting is the node at that path before it, with
the service and the children defaulted. -/
theorem RuleSpec.nodeAt_applyDefaults (p : MemcachedProxy) (path : List Nat) (r n : RuleSpec)
    (h : r.nodeAt path = some n) :
    ∃ n', (r.ApplyDefaults p).nodeAt path = some n' ∧
      n'.Service = (n.Service.map fun sv => sv.ApplyDefaults p) ∧
      n'.Children = n.Children.map (RuleSpec.belowRoot p) := by
  cases path with
  | nil =>
    have hn : r = n := by simpa [RuleSpec.nodeAt] using h
    subst hn
    exact ⟨r.ApplyDefaults p, rfl, RuleSpec.service_applyDefaults p r,
      RuleSpec.children_applyDefaults p r⟩
  | cons i is =>
    refine ⟨RuleSpec.belowRoot p n, ?_, RuleSpec.service_belowRoot p n,
      RuleSpec.children_belowRoot p n⟩
    rw [RuleSpec.nodeAt_applyDefaults_cons, h]
    rfl

theorem MemcachedProxy.applyDefaults_rules (p : MemcachedProxy) :
    p.ApplyDefaults.Spec.Rules = p.Spec.Rules.ApplyDefaults p := rfl

theorem MemcachedProxy.applyDefaults_mcRouter (p : MemcachedProxy) :
    p.ApplyDefaults.Spec.McRouter = p.Spec.McRouter.ApplyDefaults p := rfl

/-- C4: for every rule node, at any depth of `Spec.Rules`, that carries a service
reference, the node at the same place after `ApplyDefaults` carries a service
reference whose namespace is the namespace of the object if it was empty
before, and its previous value otherwise. -/
theorem ApplyDefaults_service_namespace (p : MemcachedProxy) (path : List Nat) (n : RuleSpec)
    (s : ServiceSpec) (hn : p.Spec.Rules.nodeAt path = some n) (hs : n.Service = some s) :
    ∃ n' s', p.ApplyDefaults.Spec.Rules.nodeAt path = some n' ∧ n'.Service = some s' ∧
      s'.Namespace = (if s.Namespace = "" then p.Namespace else s.Namespace) := by
  obtain ⟨n', h1, h2, -⟩ := RuleSpec.nodeAt_applyDefaults p path p.Spec.Rules n hn
  refine ⟨n', s.ApplyDefaults p, h1, ?_, ?_⟩
  · rw [h2, hs]; rfl
  · unfold ServiceSpec.ApplyDefaults
    by_cases h : s.Namespace = "" <;> simp [h]

/-- Witness of C4: the leaf two levels below the root of `nestedProxy` names the
service "a" without a namespace; after `ApplyDefaults` it has the namespace of
the object. -/
theorem ApplyDefaults_service_namespace_witness :
    ∃ n' s', nestedProxy.ApplyDefaults.Spec.Rules.nodeAt [0, 0] = some n' ∧ n'.Service = some s' ∧
      s'.Namespace = (if ("" : String) = "" then nestedProxy.Namespace else "") :=
  ApplyDefaults_service_namespace nestedProxy [0, 0]
    (RuleSpec.mk "" (some { Name := "a", Namespace := "", Port := IntOrString.zero }) [])
    { Name := "a", Namespace := "", Port := IntOrString.zero } rfl rfl

theorem ServiceSpec.applyDefaults_of_namespace (p : MemcachedProxy) (s : ServiceSpec)
    (h : s.Namespace ≠ "") : s.ApplyDefaults p = s := by
  simp [ServiceSpec.ApplyDefaults, h]

mutual
theorem RuleSpec.belowRoot_of_namespaces (p : MemcachedProxy) :
    ∀ r : RuleSpec, r.everyNode RuleSpec.serviceHasNamespace = true → RuleSpec.belowRoot p r = r
  | RuleSpec.mk t s cs, h => by
    simp only [RuleSpec.everyNode, Bool.and_eq_true] at h
    rw [RuleSpec.belowRoot_mk, RuleSpec.belowRoot_map_of_namespaces p cs h.2]
    cases s with
    | none => rfl
    | some sv =>
      have hs : sv.Namespace ≠ "" := by
        simpa [RuleSpec.serviceHasNamespace, RuleSpec.Service] using h.1
      simp [ServiceSpec.applyDefaults_of_namespace p sv hs]
theorem RuleSpec.belowRoot_map_of_namespaces (p : MemcachedProxy) :
    ∀ cs : List RuleSpec, RuleSpec.everyChild RuleSpec.serviceHasNamespace cs = true →
      cs.map (RuleSpec.belowRoot p) = cs
  | [], _ => rfl
  | c :: cs, h => by
    simp only [RuleSpec.everyChild, Bool.and_eq_true] at h
    simp only [List.map_cons]
    rw [RuleSpec.belowRoot_of_namespaces p c h.1, RuleSpec.belowRoot_map_of_namespaces p cs h.2]
end

theorem RuleSpec.rule_applyDefaults_of_defaulted (p : MemcachedProxy) (r : RuleSpec)
    (hT : r.Type_ ≠ "") (hN : r.everyNode RuleSpec.serviceHasNamespace = true) :
    r.ApplyDefaults p = r := by
  cases r with
  | mk t s cs =>
    have ht : t ≠ "" := hT
    simp only [RuleSpec.everyNode, Bool.and_eq_true] at hN
    rw [RuleSpec.applyDefaults_mk, RuleSpec.belowRoot_map_of_namespaces p cs hN.2, if_neg ht]
    cases s with
    | none => rfl
    | some sv =>
      have hs : sv.Namespace ≠ "" := by
        simpa [RuleSpec.serviceHasNamespace, RuleSpec.Service] using hN.1
      simp [ServiceSpec.applyDefaults_of_namespace p sv hs]

theorem RuleSpec.everyNode_root (q : RuleSpec → Bool) (r : RuleSpec)
    (h : r.everyNode q = true) : q r = true := by
  cases r with
  | mk t s cs =>
    simp only [RuleSpec.everyNode, Bool.and_eq_true] at h
    exact h.1

theorem McRouterSpec.mc_applyDefaults_of_defaulted (p : MemcachedProxy) (s : McRouterSpec)
    (hI : s.Image ≠ "") (hP : s.Port ≠ none) : s.ApplyDefaults p = s := by
  simp [McRouterSpec.ApplyDefaults, hI, hP]

/-- C6: `ApplyDefaults` is the identity on an object in which every rule node
has a non-empty type, every service reference has a non-empty namespace, the
mcrouter image is non-empty and the port is set: the object, and so its `Spec`,
is returned as it was. -/
theorem ApplyDefaults_identity_on_defaulted (p : MemcachedProxy)
    (hT : p.Spec.Rules.everyNode RuleSpec.hasType = true)
    (hN : p.Spec.Rules.everyNode RuleSpec.serviceHasNamespace = true)
    (hI : p.Spec.McRouter.Image ≠ "") (hP : p.Spec.McRouter.Port ≠ none) :
    p.ApplyDefaults = p ∧ p.ApplyDefaults.Spec = p.Spec := by
  have hroot : p.Spec.Rules.Type_ ≠ "" := by
    simpa [RuleSpec.hasType] using RuleSpec.everyNode_root _ _ hT
  have h : p.ApplyDefaults = p := by
    simp only [MemcachedProxy.ApplyDefaults, MemcachedProxySpec.ApplyDefaults,
      MemcachedProxySpec.afterMcRouterDefaults]
    rw [RuleSpec.rule_applyDefaults_of_defaulted p _ hroot hN,
      McRouterSpec.mc_applyDefaults_of_defaulted p _ hI hP]
  exact ⟨h, by rw [h]⟩

/-- Witness of C6 on `defaultedProxy`, whose root has the type "replicated" and
whose port is an explicit 0. -/
theorem ApplyDefaults_identity_on_defaulted_witness :
    defaultedProxy.Spec.Rules.Type_ = "replicated" ∧
      (defaultedProxy.ApplyDefaults = defaultedProxy ∧
        defaultedProxy.ApplyDefaults.Spec = defaultedProxy.Spec) :=
  ⟨by decide, ApplyDefaults_identity_on_defaulted defaultedProxy (by decide) (by decide)
    (by decide) (by decide)⟩

/-- C7: `(*McRouterSpec).ApplyDefaults` sets the image to
"jphalip/mcrouter:0.36.0" if it was empty and keeps it otherwise, sets the port
to 11211 if it was nil and keeps its value otherwise (an explicit 0 stays 0),
keeps the resource requirements, and the rule tree of the spec is the same
after this step as before. -/
theorem McRouterSpec_ApplyDefaults_defaults (s : McRouterSpec) (p : MemcachedProxy)
    (spec : MemcachedProxySpec) :
    (s.ApplyDefaults p).Image = (if s.Image = "" then "jphalip/mcrouter:0.36.0" else s.Image) ∧
      (s.ApplyDefaults p).Port = some (s.Port.getD 11211) ∧
      (({ s with Port := some 0 } : McRouterSpec).ApplyDefaults p).Port = some 0 ∧
      (s.ApplyDefaults p).Resources = s.Resources ∧
      (spec.afterMcRouterDefaults p).Rules = spec.Rules ∧
      (spec.afterMcRouterDefaults p).McRouter = spec.McRouter.ApplyDefaults p := by
  refine ⟨?_, ?_, ?_, ?_, rfl, rfl⟩
  · unfold McRouterSpec.ApplyDefaults
    by_cases h1 : s.Image = "" <;> by_cases h2 : s.Port = none <;> simp [h1, h2]
  · unfold McRouterSpec.ApplyDefaults
    cases hp : s.Port <;> by_cases h1 : s.Image = "" <;> simp [h1, hp]
  · unfold McRouterSpec.ApplyDefaults
    by_cases h1 : s.Image = "" <;> simp [h1]
  · unfold McRouterSpec.ApplyDefaults
    by_cases h1 : s.Image = "" <;> by_cases h2 : s.Port = none <;> simp [h1, h2]

/-! ## Lemmas on the fingerprint -/

theorem formatBits_ne_nil (fuel u base : Nat) (acc : List Char) :
    formatBits fuel u base acc ≠ [] := by
  induction fuel generalizing u acc with
  | zero => simp [formatBits]
  | succ f ih =>
    unfold formatBits
    split
    · exact ih _ _
    · simp

theorem FormatUint_ne_empty (i base : Nat) : FormatUint i base ≠ "" := by
  intro h
  have h2 : (FormatUint i base).data = ("" : String).data := by rw [h]
  exact formatBits_ne_nil 64 i base [] h2

theorem strconvDigitValue_digit (d : Nat) (h : d < 16) :
    strconvDigitValue (strconvDigit d) = d := by
  interval_cases d <;> decide

theorem hexValueFrom_formatBits (fuel : Nat) :
    ∀ (u : Nat) (acc : List Char), u < 16 ^ (fuel + 1) →
      hexValueFrom 0 (formatBits fuel u 16 acc) = hexValueFrom u acc := by
  induction fuel with
  | zero =>
    intro u acc hu
    have hu16 : u < 16 := by simpa using hu
    simp [formatBits, hexValueFrom, strconvDigitValue_digit u hu16]
  | succ f ih =>
    intro u acc hu
    unfold formatBits
    split
    · have hdiv : u / 16 < 16 ^ (f + 1) := by
        rw [Nat.div_lt_iff_lt_mul (by norm_num)]
        calc u < 16 ^ (f + 1 + 1) := hu
          _ = 16 ^ (f + 1) * 16 := by ring
      rw [ih (u / 16) _ hdiv]
      have hmod : u % 16 < 16 := Nat.mod_lt _ (by norm_num)
      simp only [hexValueFrom, List.foldl_cons, strconvDigitValue_digit _ hmod]
      congr 1
      omega
    · have hu16 : u < 16 := by omega
      simp [hexValueFrom, strconvDigitValue_digit u hu16]

/-- Reading the base 16 numeral written by `FormatUint` gives the number back. -/
theorem hexValueFrom_FormatUint (i : Nat) (h : i < 2 ^ 64) :
    hexValueFrom 0 (FormatUint i 16).data = i := by
  have hi : i < 16 ^ (64 + 1) := lt_of_lt_of_le h (by norm_num)
  have := hexValueFrom_formatBits 64 i [] hi
  simpa [FormatUint, hexValueFrom] using this

theorem FormatUint_injective (i j : Nat) (hi : i < 2 ^ 64) (hj : j < 2 ^ 64)
    (h : FormatUint i 16 = FormatUint j 16) : i = j := by
  rw [← hexValueFrom_FormatUint i hi, ← hexValueFrom_FormatUint j hj, h]

theorem MemcachedProxySpec.getHash_of_error (Hash : MemcachedProxySpec → Nat × Option GoError)
    (s : MemcachedProxySpec) (e : GoError) (h : (Hash s).2 = some e) :
    s.GetHash Hash = ("", some e) := by
  unfold MemcachedProxySpec.GetHash
  rcases hH : Hash s with ⟨v, err⟩
  rw [hH] at h
  simp only at h
  subst h
  rfl

theorem MemcachedProxySpec.getHash_of_ok (Hash : MemcachedProxySpec → Nat × Option GoError)
    (s : MemcachedProxySpec) (h : (Hash s).2 = none) :
    s.GetHash Hash = (FormatUint ((Hash s).1 % 2 ^ 64) 16, none) := by
  unfold MemcachedProxySpec.GetHash
  rcases hH : Hash s with ⟨v, err⟩
  rw [hH] at h
  simp only at h
  subst h
  rfl

/-- C10: `GetHash` returns the empty string iff it returns a non-nil error, which
it does iff the structural hash failed; when the structural hash succeeds the
string is not empty and the error is nil, and for the hash value 0 the string
is "0". -/
theorem GetHash_empty_iff_error (Hash : MemcachedProxySpec → Nat × Option GoError)
    (s : MemcachedProxySpec) :
    ((s.GetHash Hash).1 = "" ↔ (s.GetHash Hash).2 ≠ none) ∧
      ((s.GetHash Hash).2 = (Hash s).2) ∧
      ((Hash s).2 = none → (s.GetHash Hash).1 ≠ "" ∧ (s.GetHash Hash).2 = none) ∧
      ((Hash s).2 = none → (Hash s).1 % 2 ^ 64 = 0 → s.GetHash Hash = ("0", none)) := by
  cases hH : (Hash s).2 with
  | none =>
    have hg := MemcachedProxySpec.getHash_of_ok Hash s hH
    refine ⟨?_, ?_, ?_, ?_⟩
    · rw [hg]
      simp [FormatUint_ne_empty]
    · rw [hg]
    · intro _
      rw [hg]
      exact ⟨FormatUint_ne_empty _ _, rfl⟩
    · intro _ h0
      rw [hg, h0]
      decide
  | some e =>
    have hg := MemcachedProxySpec.getHash_of_error Hash s e hH
    refine ⟨?_, ?_, ?_, ?_⟩
    · rw [hg]
      simp
    · rw [hg]
    · intro h
      cases h
    · intro h
      cases h

/-- Witness of C10: a structural hash that succeeds with the value 0 gives the
string "0" and no error; a structural hash that fails gives the empty string
and the error. -/
theorem GetHash_empty_iff_error_witness :
    (zeroHash testNewProxy.Spec).2 = none ∧
      testNewProxy.Spec.GetHash zeroHash = ("0", none) ∧
      (testNewProxy.Spec.GetHash failingHash).1 = "" ∧
      (testNewProxy.Spec.GetHash failingHash).2 = (failingHash testNewProxy.Spec).2 :=
  ⟨rfl, (GetHash_empty_iff_error zeroHash testNewProxy.Spec).2.2.2 rfl rfl,
    (GetHash_empty_iff_error failingHash testNewProxy.Spec).1.2 (by decide),
    (GetHash_empty_iff_error failingHash testNewProxy.Spec).2.1⟩


/-! ## Frame of defaulting -/

theorem RuleSpec.type_belowRoot (p : MemcachedProxy) (r : RuleSpec) :
    (RuleSpec.belowRoot p r).Type_ = r.Type_ := by
  cases r with
  | mk t s cs => rw [RuleSpec.belowRoot_mk]; rfl

theorem ServiceSpec.name_applyDefaults (p : MemcachedProxy) (s : ServiceSpec) :
    (s.ApplyDefaults p).Name = s.Name ∧ (s.ApplyDefaults p).Port = s.Port := by
  unfold ServiceSpec.ApplyDefaults
  by_cases h : s.Namespace = "" <;> simp [h]

/-- C14: `ApplyDefaults` leaves the `Status` (`ObservedSpecHash`, `Initialized`)
and the name and namespace of the object as they were; and the result of
`GetHash` is a function of the `Spec` alone: it is the same for two objects
with the same `Spec`, whatever their `Status` and metadata. -/
theorem ApplyDefaults_writes_only_Spec (Hash : MemcachedProxySpec → Nat × Option GoError)
    (p : MemcachedProxy) (status : MemcachedProxyStatus) (metadata : ObjectMeta) :
    p.ApplyDefaults.Status = p.Status ∧
      p.ApplyDefaults.Status.ObservedSpecHash = p.Status.ObservedSpecHash ∧
      p.ApplyDefaults.Status.Initialized = p.Status.Initialized ∧
      p.ApplyDefaults.Name = p.Name ∧ p.ApplyDefaults.Namespace = p.Namespace ∧
      ({ p with Status := status, toObjectMeta := metadata } : MemcachedProxy).Spec.GetHash Hash =
        p.Spec.GetHash Hash :=
  ⟨rfl, rfl, rfl, rfl, rfl, rfl⟩

/-- C15: `ApplyDefaults` changes no `Type` below the root: the node at a
non-empty path after the call has the `Type` of the node at that path before.
In the rule tree only the `Type` of the root and the namespaces of the service
references can change: at every path the node keeps its number of children,
and its service reference, if any, keeps its name and port. -/
theorem ApplyDefaults_keeps_type_below_root (p : MemcachedProxy) (path : List Nat)
    (n : RuleSpec) (hn : p.Spec.Rules.nodeAt path = some n) :
    ∃ n', p.ApplyDefaults.Spec.Rules.nodeAt path = some n' ∧
      (path ≠ [] → n'.Type_ = n.Type_) ∧
      (path = [] → n'.Type_ = if n.Type_ = "" then ShardedRuleType else n.Type_) ∧
      n'.Children.length = n.Children.length ∧
      n'.Service.map ServiceSpec.Name = n.Service.map ServiceSpec.Name ∧
      n'.Service.map ServiceSpec.Port = n.Service.map ServiceSpec.Port := by
  have hshape : ∀ n' : RuleSpec,
      n'.Service = (n.Service.map fun sv => sv.ApplyDefaults p) →
      n'.Children = n.Children.map (RuleSpec.belowRoot p) →
      n'.Children.length = n.Children.length ∧
        n'.Service.map ServiceSpec.Name = n.Service.map ServiceSpec.Name ∧
        n'.Service.map ServiceSpec.Port = n.Service.map ServiceSpec.Port := by
    intro n' h2 h3
    refine ⟨by rw [h3, List.length_map], ?_, ?_⟩
    · rw [h2]
      cases n.Service with
      | none => rfl
      | some s => simp [(ServiceSpec.name_applyDefaults p s).1]
    · rw [h2]
      cases n.Service with
      | none => rfl
      | some s => simp [(ServiceSpec.name_applyDefaults p s).2]
  cases path with
  | nil =>
    have hr : p.Spec.Rules = n := by simpa [RuleSpec.nodeAt] using hn
    refine ⟨p.ApplyDefaults.Spec.Rules, rfl, fun h => absurd rfl h, fun _ => ?_,
      hshape _ ?_ ?_⟩
    · rw [MemcachedProxy.applyDefaults_rules, hr]
      cases n with
      | mk t s cs => rw [RuleSpec.applyDefaults_mk]; rfl
    · rw [MemcachedProxy.applyDefaults_rules, hr]
      exact RuleSpec.service_applyDefaults p n
    · rw [MemcachedProxy.applyDefaults_rules, hr]
      exact RuleSpec.children_applyDefaults p n
  | cons i is =>
    refine ⟨RuleSpec.belowRoot p n, ?_, fun _ => RuleSpec.type_belowRoot p n,
      fun h => absurd h (List.cons_ne_nil i is), hshape _ (RuleSpec.service_belowRoot p n)
        (RuleSpec.children_belowRoot p n)⟩
    rw [MemcachedProxy.applyDefaults_rules, RuleSpec.nodeAt_applyDefaults_cons, hn]
    rfl

/-- Witness of C15: the internal child of the root of `nestedProxy` has an empty
`Type` before and after `ApplyDefaults`. -/
theorem ApplyDefaults_keeps_type_below_root_witness :
    ∃ n', nestedProxy.ApplyDefaults.Spec.Rules.nodeAt [0] = some n' ∧ n'.Type_ = "" :=
  match ApplyDefaults_keeps_type_below_root nestedProxy [0]
      (RuleSpec.mk "" none
        [RuleSpec.mk "" (some { Name := "a", Namespace := "", Port := IntOrString.zero }) []])
      rfl with
  | ⟨n', h1, h2, _⟩ => ⟨n', h1, h2 (by decide)⟩

/-! ## Validation -/

theorem RuleSpec.isValidNode_of_same_shape (n n' : RuleSpec)
    (hs : n'.Service.isSome = n.Service.isSome) (hc : n'.Children.length = n.Children.length) :
    n'.isValidNode = n.isValidNode := by
  have he : n'.Children.isEmpty = n.Children.isEmpty := by
    cases h1 : n'.Children <;> cases h2 : n.Children <;> simp_all
  simp [RuleSpec.isValidNode, hs, he]

/-- C11 as stated fails: `ApplyDefaults` takes a rule tree whose root carries
both a service reference and a child, and one whose root carries neither, and
returns them defaulted like any other tree, with the type "sharded" and the
namespace of the object; it reports nothing. -/
theorem ApplyDefaults_defaults_invalid_trees :
    bothProxy.Spec.Rules.isValidNode = false ∧
      neitherProxy.Spec.Rules.isValidNode = false ∧
      bothProxy.ApplyDefaults.Spec.Rules =
        RuleSpec.mk "sharded" (some { Name := "fuga", Namespace := "default", Port := IntOrString.zero })
          [RuleSpec.mk "" (some { Name := "a", Namespace := "default", Port := IntOrString.zero }) []] ∧
      neitherProxy.ApplyDefaults.Spec.Rules = RuleSpec.mk "sharded" none [] :=
  ⟨by decide, by decide, rfl, rfl⟩

/-- C11, amended: `ApplyDefaults` does not validate.  A rule node, at any depth,
that carries both a service reference and children, or neither, is still there
after the call and still carries both, or neither. -/
theorem ApplyDefaults_keeps_invalid_nodes (p : MemcachedProxy) (path : List Nat) (n : RuleSpec)
    (hn : p.Spec.Rules.nodeAt path = some n) (hinv : n.isValidNode = false) :
    ∃ n', p.ApplyDefaults.Spec.Rules.nodeAt path = some n' ∧ n'.isValidNode = false ∧
      n'.Service.isSome = n.Service.isSome ∧ n'.Children.length = n.Children.length := by
  obtain ⟨n', h1, h2, h3⟩ := RuleSpec.nodeAt_applyDefaults p path p.Spec.Rules n hn
  have hs : n'.Service.isSome = n.Service.isSome := by
    rw [h2]; cases n.Service <;> rfl
  have hc : n'.Children.length = n.Children.length := by
    rw [h3, List.length_map]
  exact ⟨n', h1, by rw [RuleSpec.isValidNode_of_same_shape n n' hs hc, hinv], hs, hc⟩

/-- Witness of the amended C11 at the root of `bothProxy`. -/
theorem ApplyDefaults_keeps_invalid_nodes_witness :
    ∃ n', bothProxy.ApplyDefaults.Spec.Rules.nodeAt [] = some n' ∧ n'.isValidNode = false ∧
      n'.Service.isSome = true ∧ n'.Children.length = 1 :=
  ApplyDefaults_keeps_invalid_nodes bothProxy [] bothProxy.Spec.Rules rfl (by decide)

/-! ## The numeral of the fingerprint -/

theorem strconvDigit_mem_hexDigits (d : Nat) (h : d < 16) : strconvDigit d ∈ hexDigits := by
  interval_cases d <;> decide

theorem strconvDigit_ne_zero (d : Nat) (h0 : 0 < d) (h : d < 16) : strconvDigit d ≠ '0' := by
  interval_cases d <;> decide

/-- The digits written by the loop of `FormatUint` in base 16 for a number below
`16 ^ (k + 1)`: at least one and at most `k + 1`, all hexadecimal digits, and
the first is not `0` unless the number is 0. -/
theorem formatBits_hex (fuel : Nat) :
    ∀ (k u : Nat) (acc : List Char), k ≤ fuel → u < 16 ^ (k + 1) →
      ∃ ds : List Char, formatBits fuel u 16 acc = ds ++ acc ∧ 1 ≤ ds.length ∧
        ds.length ≤ k + 1 ∧ (∀ c ∈ ds, c ∈ hexDigits) ∧ (0 < u → ds.head? ≠ some '0') := by
  induction fuel with
  | zero =>
    intro k u acc hk hu
    have hk0 : k = 0 := by omega
    subst hk0
    have hu16 : u < 16 := by simpa using hu
    refine ⟨[strconvDigit u], by simp [formatBits], by simp, by simp, ?_, ?_⟩
    · intro c hc
      have : c = strconvDigit u := by simpa using hc
      rw [this]
      exact strconvDigit_mem_hexDigits u hu16
    · intro h0
      simpa using strconvDigit_ne_zero u h0 hu16
  | succ f ih =>
    intro k u acc hk hu
    by_cases h16 : 16 ≤ u
    · have hk1 : 1 ≤ k := by
        by_contra hlt
        have hk0 : k = 0 := by omega
        subst hk0
        have : u < 16 := by simpa using hu
        omega
      have hdiv : u / 16 < 16 ^ (k - 1 + 1) := by
        rw [Nat.div_lt_iff_lt_mul (by norm_num)]
        have hpow : 16 ^ (k + 1) = 16 ^ (k - 1 + 1) * 16 := by
          rw [← pow_succ]
          congr 1
          omega
        omega
      have hmod : u % 16 < 16 := Nat.mod_lt _ (by norm_num)
      obtain ⟨ds, hds, hlen1, hlen2, hmem, hhead⟩ :=
        ih (k - 1) (u / 16) (strconvDigit (u % 16) :: acc) (by omega) hdiv
      have hpos : 0 < u / 16 := Nat.div_pos h16 (by norm_num)
      refine ⟨ds ++ [strconvDigit (u % 16)], ?_, ?_, ?_, ?_, ?_⟩
      · unfold formatBits
        rw [if_pos h16, hds]
        simp
      · simp
      · simp only [List.length_append, List.length_singleton]
        omega
      · intro c hc
        rcases List.mem_append.mp hc with h | h
        · exact hmem c h
        · have : c = strconvDigit (u % 16) := by simpa using h
          rw [this]
          exact strconvDigit_mem_hexDigits _ hmod
      · intro _
        have hne := hhead hpos
        cases ds with
        | nil => simp at hlen1
        | cons d ds' => simpa using hne
    · have hu16 : u < 16 := by omega
      refine ⟨[strconvDigit u], ?_, by simp, by simp, ?_, ?_⟩
      · unfold formatBits
        rw [if_neg h16]
        rfl
      · intro c hc
        have : c = strconvDigit u := by simpa using hc
        rw [this]
        exact strconvDigit_mem_hexDigits u hu16
      · intro h0
        simpa using strconvDigit_ne_zero u h0 hu16

theorem FormatUint_hex (i : Nat) (h : i < 2 ^ 64) :
    1 ≤ (FormatUint i 16).data.length ∧ (FormatUint i 16).data.length ≤ 16 ∧
      (∀ c ∈ (FormatUint i 16).data, c ∈ hexDigits) ∧
      (0 < i → (FormatUint i 16).data.head? ≠ some '0') := by
  have hi : i < 16 ^ (15 + 1) := lt_of_lt_of_le h (by norm_num)
  obtain ⟨ds, hds, h1, h2, h3, h4⟩ := formatBits_hex 64 15 i [] (by norm_num) hi
  have hdata : (FormatUint i 16).data = ds := by simpa [FormatUint] using hds
  rw [hdata]
  exact ⟨h1, h2, h3, h4⟩

/-- C13: when the structural hash of a spec succeeds with the 64-bit value `h`,
`GetHash` returns the lower-case hexadecimal numeral of `h` and no error: a
string of 1 to 16 characters, all among `0-9a-f`, without a leading zero ("0"
for `h = 0`), whose value in base 16 is `h`.  So the strings returned for two
specs on which the structural hash succeeds are equal iff the 64-bit values
are equal. -/
theorem GetHash_hex_numeral (Hash : MemcachedProxySpec → Nat × Option GoError)
    (s1 s2 : MemcachedProxySpec) (h1 : (Hash s1).2 = none) (h2 : (Hash s2).2 = none) :
    s1.GetHash Hash = (FormatUint ((Hash s1).1 % 2 ^ 64) 16, none) ∧
      1 ≤ (s1.GetHash Hash).1.length ∧ (s1.GetHash Hash).1.length ≤ 16 ∧
      (∀ c ∈ (s1.GetHash Hash).1.data, c ∈ hexDigits) ∧
      ((Hash s1).1 % 2 ^ 64 ≠ 0 → (s1.GetHash Hash).1.data.head? ≠ some '0') ∧
      ((Hash s1).1 % 2 ^ 64 = 0 → (s1.GetHash Hash).1 = "0") ∧
      hexValueFrom 0 (s1.GetHash Hash).1.data = (Hash s1).1 % 2 ^ 64 ∧
      ((s1.GetHash Hash).1 = (s2.GetHash Hash).1 ↔
        (Hash s1).1 % 2 ^ 64 = (Hash s2).1 % 2 ^ 64) := by
  have hlt1 : (Hash s1).1 % 2 ^ 64 < 2 ^ 64 := Nat.mod_lt _ (by norm_num)
  have hlt2 : (Hash s2).1 % 2 ^ 64 < 2 ^ 64 := Nat.mod_lt _ (by norm_num)
  have hg1 := MemcachedProxySpec.getHash_of_ok Hash s1 h1
  have hg2 := MemcachedProxySpec.getHash_of_ok Hash s2 h2
  obtain ⟨hlen1, hlen2, hmem, hhead⟩ := FormatUint_hex _ hlt1
  rw [hg1, hg2]
  refine ⟨rfl, hlen1, hlen2, hmem, fun h0 => hhead (Nat.pos_of_ne_zero h0), ?_,
    hexValueFrom_FormatUint _ hlt1, ?_⟩
  · intro h0
    show FormatUint ((Hash s1).1 % 2 ^ 64) 16 = "0"
    rw [h0]
    decide
  · constructor
    · intro h
      exact FormatUint_injective _ _ hlt1 hlt2 h
    · intro h
      show FormatUint ((Hash s1).1 % 2 ^ 64) 16 = FormatUint ((Hash s2).1 % 2 ^ 64) 16
      rw [h]

/-- Witness of C13: for the structural hash values 255 and 2 ^ 64 - 1 `GetHash`
returns "ff" and sixteen times "f". -/
theorem GetHash_hex_numeral_witness :
    ({ testNewProxy.Spec with McRouter := { McRouterSpec.zero with Image := "a" } } :
        MemcachedProxySpec).GetHash (fun s => (255 * s.McRouter.Image.length, none)) = ("ff", none) ∧
      testNewProxy.Spec.GetHash (fun _ => (2 ^ 64 - 1, none)) = ("ffffffffffffffff", none) :=
  ⟨(GetHash_hex_numeral (fun s => (255 * s.McRouter.Image.length, none))
      { testNewProxy.Spec with McRouter := { McRouterSpec.zero with Image := "a" } }
      testNewProxy.Spec rfl rfl).1,
   (GetHash_hex_numeral (fun _ => (2 ^ 64 - 1, none)) testNewProxy.Spec testNewProxy.Spec
      rfl rfl).1⟩

/-! ## One reconcile pass -/

theorem hashstructure.hashUpdateUnordered_right_comm (h a b : Nat) :
    hashstructure.hashUpdateUnordered (hashstructure.hashUpdateUnordered h a) b =
      hashstructure.hashUpdateUnordered (hashstructure.hashUpdateUnordered h b) a := by
  simp only [hashstructure.hashUpdateUnordered]
  rw [Nat.xor_assoc, Nat.xor_comm a b, ← Nat.xor_assoc]

/-- The hash of a map does not depend on the order in which its entries are met. -/
theorem hashstructure.visitResourceList_perm (l1 l2 : List (String × Quantity))
    (h : l1.Perm l2) :
    hashstructure.visitResourceList l1 = hashstructure.visitResourceList l2 := by
  unfold hashstructure.visitResourceList
  exact h.foldl_eq' (fun x _ y _ z => hashstructure.hashUpdateUnordered_right_comm z _ _) 0

theorem hashstructure.hash_eq_of_same_content (s1 s2 : MemcachedProxySpec)
    (hR : s1.Rules = s2.Rules) (hI : s1.McRouter.Image = s2.McRouter.Image)
    (hP : s1.McRouter.Port = s2.McRouter.Port)
    (hL : s1.McRouter.Resources.Limits.Perm s2.McRouter.Resources.Limits)
    (hQ : s1.McRouter.Resources.Requests.Perm s2.McRouter.Resources.Requests) :
    hashstructure.Hash s1 = hashstructure.Hash s2 := by
  simp only [hashstructure.Hash, hashstructure.visitMemcachedProxySpec,
    hashstructure.visitMcRouterSpec, hashstructure.visitResourceRequirements, hR, hI, hP,
    hashstructure.visitResourceList_perm _ _ hL, hashstructure.visitResourceList_perm _ _ hQ]

theorem MemcachedProxySpec.getHash_congr (Hash : MemcachedProxySpec → Nat × Option GoError)
    (s1 s2 : MemcachedProxySpec) (h : Hash s1 = Hash s2) :
    s1.GetHash Hash = s2.GetHash Hash := by
  unfold MemcachedProxySpec.GetHash
  rw [h]

/-- The hash of a map of quantities reads the names and the formats only. -/
theorem hashstructure.visitResourceList_of_formats (l1 l2 : List (String × Quantity))
    (h : l1.map (fun e => (e.1, e.2.Format)) = l2.map (fun e => (e.1, e.2.Format))) :
    hashstructure.visitResourceList l1 = hashstructure.visitResourceList l2 := by
  have key : ∀ (l : List (String × Quantity)) (h0 : Nat),
      l.foldl (fun h e => hashstructure.hashUpdateUnordered h
          (hashstructure.hashUpdateOrdered (hashstructure.visitString e.1)
            (hashstructure.visitQuantity e.2))) h0 =
        (l.map (fun e => (e.1, e.2.Format))).foldl (fun h e => hashstructure.hashUpdateUnordered h
          (hashstructure.hashUpdateOrdered (hashstructure.visitString e.1)
            (hashstructure.visitField (hashstructure.visitString "Quantity") "Format"
              (hashstructure.visitString e.2)))) h0 := by
    intro l
    induction l with
    | nil => intro h0; rfl
    | cons e l ih =>
      intro h0
      simp only [List.foldl_cons, List.map_cons]
      exact ih _
  unfold hashstructure.visitResourceList
  rw [key l1 0, key l2 0, h]

/-- C8: `GetHash`, with the structural hash of `hashstructure`, gives the same
string and error for two specs with the same content: the same rule tree
(shape, child order, pointed-to services), the same image, the same pointed-to
port value and the same entries in the maps of limits and of requests, in
whatever order the entries are met.  And the result on the `Spec` after two
calls of `ApplyDefaults` is the result on the `Spec` after one call. -/
theorem GetHash_pure_and_stable (p : MemcachedProxy) (s1 s2 : MemcachedProxySpec)
    (hR : s1.Rules = s2.Rules) (hI : s1.McRouter.Image = s2.McRouter.Image)
    (hP : s1.McRouter.Port = s2.McRouter.Port)
    (hL : s1.McRouter.Resources.Limits.Perm s2.McRouter.Resources.Limits)
    (hQ : s1.McRouter.Resources.Requests.Perm s2.McRouter.Resources.Requests) :
    s1.GetHash hashstructure.Hash = s2.GetHash hashstructure.Hash ∧
      p.ApplyDefaults.ApplyDefaults.Spec.GetHash hashstructure.Hash =
        p.ApplyDefaults.Spec.GetHash hashstructure.Hash := by
  refine ⟨MemcachedProxySpec.getHash_congr _ _ _
    (hashstructure.hash_eq_of_same_content s1 s2 hR hI hP hL hQ), ?_⟩
  rw [MemcachedProxy.proxy_applyDefaults_idem]

/-- Witness of C8: two specs whose maps of limits hold `cpu` and `memory`, met
in the two orders; and the object of `TestNewProxy` defaulted twice. -/
theorem GetHash_pure_and_stable_witness :
    cpuMemorySpec.McRouter.Resources.Limits ≠ memoryCpuSpec.McRouter.Resources.Limits ∧
      (cpuMemorySpec.GetHash hashstructure.Hash = memoryCpuSpec.GetHash hashstructure.Hash ∧
        testNewProxy.ApplyDefaults.ApplyDefaults.Spec.GetHash hashstructure.Hash =
          testNewProxy.ApplyDefaults.Spec.GetHash hashstructure.Hash) :=
  ⟨by decide,
    GetHash_pure_and_stable testNewProxy cpuMemorySpec memoryCpuSpec rfl rfl rfl
      (List.Perm.swap _ _ _) (List.Perm.refl _)⟩

/-- C9, evaluated on the code: `cpu100mSpec` and `cpu200mSpec` are normalized
specs that differ in one resource-requirement value, the limit `cpu: 100m`
against `cpu: 200m`, and in nothing else; `GetHash` returns the same string,
with no error, for both. -/
theorem GetHash_same_for_cpu_100m_and_200m :
    cpu100mSpec.isNormalized ∧ cpu200mSpec.isNormalized ∧
      cpu100mSpec.Rules = cpu200mSpec.Rules ∧
      cpu100mSpec.McRouter.Image = cpu200mSpec.McRouter.Image ∧
      cpu100mSpec.McRouter.Port = cpu200mSpec.McRouter.Port ∧
      cpu100mSpec.McRouter.Resources.Requests = cpu200mSpec.McRouter.Resources.Requests ∧
      cpu100mSpec.McRouter.Resources.Limits = [("cpu", { amount := "100m", Format := "DecimalSI" })] ∧
      cpu200mSpec.McRouter.Resources.Limits = [("cpu", { amount := "200m", Format := "DecimalSI" })] ∧
      cpu100mSpec.GetHash hashstructure.Hash = cpu200mSpec.GetHash hashstructure.Hash ∧
      (cpu100mSpec.GetHash hashstructure.Hash).2 = none ∧
      (cpu100mSpec.GetHash hashstructure.Hash).1 ≠ "" := by
  refine ⟨⟨proxyOfSpec cpu100mSpec, rfl⟩, ⟨proxyOfSpec cpu200mSpec, rfl⟩, rfl, rfl, rfl, rfl,
    rfl, rfl, ?_, rfl, ?_⟩
  · apply MemcachedProxySpec.getHash_congr
    simp only [hashstructure.Hash, hashstructure.visitMemcachedProxySpec,
      hashstructure.visitMcRouterSpec, hashstructure.visitResourceRequirements]
    rw [hashstructure.visitResourceList_of_formats cpu100mSpec.McRouter.Resources.Limits
      cpu200mSpec.McRouter.Resources.Limits rfl]
    rfl
  · rw [MemcachedProxySpec.getHash_of_ok _ _ rfl]
    exact FormatUint_ne_empty _ _

/-! ## The update issued by a reconcile pass -/

